import Mathlib

/-!
Shallow embedding of the `httpclient` package: the configuration builder
(`options.go`) and the retry engine `HttpClient.Do` (`client.go` /
`part_000`), with theorems about the retry loop's observable behaviour.

The executor (`Doer`), the policy callbacks and the request body are the
only external collaborators the engine interacts with; their observable
behaviour is passed in as explicit functions (the executor's result at
attempt `i`, how many body bytes it consumes at attempt `i`).  Hooks
(`requestHook`, `responseHook`, `errorHook`) return void in Go and do not
influence the loop's control flow or state, so the loop model does not
evaluate them; their configuration fields are still part of the model for
the option claims.  Timing (`time.Sleep`) is unobservable in a pure model;
what matters — and what the loop records — is *whether* the backoff
function is invoked, via an event trace.
-/

namespace Httpclient

/-- Byte content of a request body stream. -/
abbrev Bytes := List Nat

/-- An `http.Response`; only the status code is inspected by the engine. -/
structure Response where
  statusCode : Int
  deriving Repr, DecidableEq

/-- A request body as the engine sees it: either the caller-supplied stream,
or the `ioutil.NopCloser` wrapper the engine installs over an in-memory
`bytes.Reader` holding the buffered copy (`req.Body = ioutil.NopCloser(bodyReader)`).
The wrapper exposes no seeking capability to readers of the request; the
engine rewinds through its separately retained reader. -/
inductive Body where
  | stream (content : Bytes)
  | nopCloser (buf : Bytes)
  deriving Repr, DecidableEq

/-- `ioutil.ReadAll` on a body (reads in this model always succeed). -/
def readAll : Body → Bytes
  | .stream c => c
  | .nopCloser b => b

/-- An `http.Request`, restricted to the fields the engine touches or
passes along. -/
structure Request where
  method : String
  url : String
  headers : List (String × String)
  close : Bool
  body : Option Body
  deriving Repr, DecidableEq

/-- Result of one executor call `c.client.Do(req)`: either a response with a
nil error, or a non-nil error (its message) together with whatever response
value the executor returned alongside it. -/
inductive Outcome where
  | ok (resp : Response)
  | fail (resp : Option Response) (msg : String)
  deriving Repr, DecidableEq

/-- `Doer`: the injected executor.  Its observable behaviour over a run of
the loop is its result at each attempt index. -/
def Doer := Nat → Outcome

/-- `RequestHook func(*http.Request, int)`. -/
def RequestHook := Request → Nat → Unit

/-- `ResponseHook func(*http.Request, *http.Response)`. -/
def ResponseHook := Request → Response → Unit

/-- `ErrorHook func(req *http.Request, err error, retry int)`. -/
def ErrorHook := Request → String → Nat → Unit

/-- `CheckRetry func(req, resp, err) (bool, error)`; `resp` and `err` may be
nil. -/
def CheckRetry := Request → Option Response → Option String → Bool × Option String

/-- `BackOff func(attemptNum int, resp *http.Response) time.Duration`
(duration in milliseconds). -/
def BackOff := Nat → Option Response → Nat

/-- `ErrorHandler func(resp *http.Response, err error, numTries int)
(*http.Response, error)`.  The error argument and the returned error are the
multi-error aggregate type used by the engine. -/
def ErrorHandler :=
  Option Response → Option (List String) → Nat → Option Response × Option (List String)

/-- The `HttpClient` configuration struct.  Nil-able Go fields (interface and
function values) are `Option`s. -/
structure HttpClient where
  baseURL : String
  client : Option Doer
  retryCount : Int
  requestHook : Option RequestHook
  responseHook : Option ResponseHook
  errorHook : Option ErrorHook
  checkRetry : Option CheckRetry
  backOff : Option BackOff
  errorHandler : Option ErrorHandler

/-- `defaultBackOffPolicy`: constant 500ms. -/
def defaultBackOffPolicy : BackOff := fun _ _ => 500

/-- The default executor `&http.Client{Timeout: DefaultHTTPTimeout}`.  Its
transport behaviour lives outside this library; only its presence (being
non-nil) is relevant to the claims about the configuration builder. -/
def stdNetHttpClient : Doer := fun _ => Outcome.fail none "transport"

/-- Go's `Option func(client *HttpClient)` (renamed: `Option` is taken in
Lean). -/
abbrev ClientOption := HttpClient → HttpClient

/-- `New`: apply the options in order to the default configuration. -/
def New (opts : List ClientOption) : HttpClient :=
  opts.foldl (fun c opt => opt c)
    { baseURL := ""
      client := some stdNetHttpClient
      retryCount := 0
      requestHook := none
      responseHook := none
      errorHook := none
      checkRetry := none
      backOff := some defaultBackOffPolicy
      errorHandler := none }

/-- `WithDoer`: unconditional assignment `c.client = doer`. -/
def WithDoer (doer : Option Doer) : ClientOption := fun c => { c with client := doer }

/-- `WithRetryCount`: unconditional assignment. -/
def WithRetryCount (retryCount : Int) : ClientOption :=
  fun c => { c with retryCount := retryCount }

/-- `WithRequestHook`: unconditional assignment. -/
def WithRequestHook (rh : Option RequestHook) : ClientOption :=
  fun c => { c with requestHook := rh }

/-- `WithResponseHook`: unconditional assignment. -/
def WithResponseHook (rh : Option ResponseHook) : ClientOption :=
  fun c => { c with responseHook := rh }

/-- `WithCheckRetry`: unconditional assignment. -/
def WithCheckRetry (cr : Option CheckRetry) : ClientOption :=
  fun c => { c with checkRetry := cr }

/-- `WithBackOff`: guarded — `if b == nil { return }` — then assignment. -/
def WithBackOff (b : Option BackOff) : ClientOption := fun c =>
  match b with
  | none => c
  | some _ => { c with backOff := b }

/-- `WithErrorHook`: unconditional assignment. -/
def WithErrorHook (eh : Option ErrorHook) : ClientOption :=
  fun c => { c with errorHook := eh }

/-- `WithErrorHandler`: unconditional assignment. -/
def WithErrorHandler (eh : Option ErrorHandler) : ClientOption :=
  fun c => { c with errorHandler := eh }

/-- `WithBaseURL`: unconditional assignment. -/
def WithBaseURL (u : String) : ClientOption := fun c => { c with baseURL := u }

/-- Observable events of a run of the loop: an executor invocation at
attempt `i` (recording the position of the engine's retained body reader at
the moment of the call, `none` when the request has no body), a backoff
invocation at attempt `i`, and the final error-handler call (recording the
`numTries` argument it receives). -/
inductive Event where
  | exec (i : Nat) (bodyPos : Option Nat)
  | backoff (i : Nat)
  | handlerCall (numTries : Nat)
  deriving Repr, DecidableEq

/-- The loop's mutable state: `resp`, the valkyrie multi-error message list,
`numTries`, the retained `bytes.Reader` position (`none` when no body), and
the event trace. -/
structure LoopState where
  resp : Option Response
  multiErr : List String
  numTries : Nat
  bodyPos : Option Nat
  trace : List Event
  deriving Repr, DecidableEq

/-- valkyrie's `MultiError.HasError()` (external dependency, modelled by its
documented contract): nil when no message was pushed, otherwise an error
aggregating the pushed messages in order. -/
def HasError (errs : List String) : Option (List String) :=
  match errs with
  | [] => none
  | _ => some errs

/-- The body handling `Do` performs before the loop: set `req.Close = true`;
when a body is present, `ioutil.ReadAll` it and replace it with
`ioutil.NopCloser(bytes.NewReader(reqData))`.  Returns the mutated request
and the engine's retained reader position (`bytes.NewReader` starts at
offset 0), `none` when there is no body. -/
def doSetup (req : Request) : Request × Option Nat :=
  match req.body with
  | none => ({ req with close := true }, none)
  | some b =>
      ({ req with close := true, body := some (Body.nopCloser (readAll b)) }, some 0)

/-- Go's `break` or `continue` at the end of one execution of the loop body,
carrying the loop state it leaves behind. -/
inductive StepRes where
  | brk (st : LoopState)
  | cont (st : LoopState)
  deriving Repr, DecidableEq

/-- One execution of the body of the retry loop of `Do` at attempt index
`i`, transcribed branch for branch; it ends in Go's `break` or `continue`.
`outcomes i` is the executor's result at attempt `i`; `consume i` is how
many body bytes the executor reads during attempt `i` (the engine seeks the
retained reader back to offset 0 right after every call).  Closing the
superseded response body and invoking the void-returning hooks have no
effect on this state and are not recorded. -/
def doStep (c : HttpClient) (outcomes : Nat → Outcome) (consume : Nat → Nat)
    (req : Request) (st : LoopState) (i : Nat) : StepRes :=
  let isRetryOk : Bool := decide (0 < c.retryCount ∧ (i : Int) < c.retryCount)
  let st1 : LoopState := { st with trace := st.trace ++ [Event.exec i st.bodyPos] }
  let st2 : LoopState :=
    { st1 with bodyPos := (st1.bodyPos.map (fun p => p + consume i)).map (fun _ => 0) }
  match outcomes i with
  | Outcome.fail r msg =>
    let st3 : LoopState := { st2 with resp := r, multiErr := st2.multiErr ++ [msg] }
    match c.checkRetry with
    | some f =>
      let check := f req r (some msg)
      if check.1 then
        let st4 : LoopState :=
          if isRetryOk then { st3 with trace := st3.trace ++ [Event.backoff i] } else st3
        StepRes.cont { st4 with numTries := st4.numTries + 1 }
      else
        match check.2 with
        | some ce => StepRes.brk { st3 with multiErr := st3.multiErr ++ [ce] }
        | none => StepRes.brk st3
    | none =>
      let st4 : LoopState :=
        if isRetryOk then { st3 with trace := st3.trace ++ [Event.backoff i] } else st3
      StepRes.cont { st4 with numTries := st4.numTries + 1 }
  | Outcome.ok r =>
    let st3 : LoopState := { st2 with resp := some r }
    let isDefaultRetryPolicy : Bool := decide (500 ≤ r.statusCode) && isRetryOk
    match c.checkRetry with
    | some f =>
      if isRetryOk then
        let check := f req (some r) none
        if check.1 then
          StepRes.cont { st3 with trace := st3.trace ++ [Event.backoff i],
                                  numTries := st3.numTries + 1 }
        else
          match check.2 with
          | some ce => StepRes.brk { st3 with multiErr := st3.multiErr ++ [ce] }
          | none => StepRes.brk st3
      else
        if isDefaultRetryPolicy then
          StepRes.cont { st3 with trace := st3.trace ++ [Event.backoff i],
                                  numTries := st3.numTries + 1 }
        else StepRes.brk st3
    | none =>
      if isDefaultRetryPolicy then
        StepRes.cont { st3 with trace := st3.trace ++ [Event.backoff i],
                                numTries := st3.numTries + 1 }
      else StepRes.brk st3

/-- The retry loop of `Do`: `for i := 0; i <= c.retryCount; i++` around
`doStep`.  The loop condition is the guard `i ≤ c.retryCount`; `fuel` only
bounds the structural recursion and is chosen large enough in `Do` never to
cut the loop short (adding fuel beyond `(c.retryCount + 1 - i).toNat` never
changes the result — `doLoop_add_fuel` below). -/
def doLoop (c : HttpClient) (outcomes : Nat → Outcome) (consume : Nat → Nat)
    (req : Request) (st : LoopState) (i : Nat) : Nat → LoopState
  | 0 => st
  | fuel + 1 =>
    if (i : Int) ≤ c.retryCount then
      match doStep c outcomes consume req st i with
      | StepRes.brk st2 => st2
      | StepRes.cont st2 => doLoop c outcomes consume req st2 (i + 1) fuel
    else st

/-- The loop state before the first iteration. -/
def initState (bodyPos : Option Nat) : LoopState :=
  { resp := none, multiErr := [], numTries := 0, bodyPos := bodyPos, trace := [] }

/-- What `Do` returns, together with the request it mutated and the loop's
final state (for stating trace and frame properties). -/
structure DoResult where
  resp : Option Response
  err : Option (List String)
  req : Request
  finalState : LoopState
  deriving Repr

/-- `HttpClient.Do`: body setup, retry loop, result composition. -/
def Do (c : HttpClient) (outcomes : Nat → Outcome) (consume : Nat → Nat)
    (req : Request) : DoResult :=
  let s := doSetup req
  let stFin := doLoop c outcomes consume s.1 (initState s.2) 0 (c.retryCount + 1).toNat
  match c.errorHandler with
  | some h =>
    let res := h stFin.resp (HasError stFin.multiErr) stFin.numTries
    { resp := res.1, err := res.2, req := s.1
      finalState :=
        { stFin with trace := stFin.trace ++ [Event.handlerCall stFin.numTries] } }
  | none =>
    { resp := stFin.resp, err := HasError stFin.multiErr, req := s.1, finalState := stFin }

/-- Number of executor invocations recorded in a trace. -/
def execCount (t : List Event) : Nat :=
  (t.filter (fun e => match e with | Event.exec _ _ => true | _ => false)).length

/-- Number of backoff invocations recorded in a trace. -/
def backoffCount (t : List Event) : Nat :=
  (t.filter (fun e => match e with | Event.backoff _ => true | _ => false)).length

/-- The `numTries` arguments of the error-handler calls recorded in a trace. -/
def handlerCalls (t : List Event) : List Nat :=
  t.filterMap (fun e => match e with | Event.handlerCall n => some n | _ => none)


/-- The final loop state inside `Do` (before result composition). -/
def loopResult (c : HttpClient) (outc : Nat → Outcome) (cons : Nat → Nat)
    (req : Request) : LoopState :=
  doLoop c outc cons (doSetup req).1 (initState (doSetup req).2) 0 (c.retryCount + 1).toNat

/-! ### Concrete inputs used to instantiate the theorems -/

/-- A body-less request. -/
def exReq : Request :=
  { method := "GET", url := "https://example.com", headers := [], close := false, body := none }

/-- A request carrying a three-byte body. -/
def exReqBody : Request :=
  { method := "POST", url := "https://example.com", headers := [], close := false,
    body := some (Body.stream [1, 2, 3]) }

/-- An executor that always fails with a transport error. -/
def exFailOutcomes : Nat → Outcome := fun _ => Outcome.fail none "refused"

/-- An executor that always answers 200. -/
def exOk200 : Nat → Outcome := fun _ => Outcome.ok { statusCode := 200 }

/-- An executor that always answers 500. -/
def exOk500 : Nat → Outcome := fun _ => Outcome.ok { statusCode := 500 }

/-- An executor body-read pattern: two bytes per attempt. -/
def exConsume : Nat → Nat := fun _ => 2

/-- An error handler that encodes the `numTries` argument it receives into
the error it returns (so the value the engine passes is observable). -/
def exHandler : ErrorHandler := fun r _ n => (r, some (List.replicate n "t"))

/-- A check-retry policy that always rejects with its own error, as in the
repository's `TestHttpClient_DoErrorWithRetryAndCheckRetry`. -/
def exCheck : CheckRetry := fun _ _ _ => (false, some "check err")

/-- The default configuration. -/
def exBase : HttpClient := New []

/-- Default configuration plus the observing error handler. -/
def exCfgHandler : HttpClient := New [WithErrorHandler (some exHandler)]

/-- Configuration with two retries and the always-reject check-retry. -/
def exCfgCheck : HttpClient := New [WithRetryCount 2, WithCheckRetry (some exCheck)]

/-- Configuration with five retries (and no check-retry). -/
def exCfg5 : HttpClient := New [WithRetryCount 5]

/-- Configuration with a negative retry count. -/
def exCfgNeg : HttpClient := New [WithRetryCount (-1)]

/-! ### Basic lemmas about traces and the loop -/

theorem execCount_append (a b : List Event) :
    execCount (a ++ b) = execCount a + execCount b := by
  simp [execCount, List.filter_append]

theorem backoffCount_append (a b : List Event) :
    backoffCount (a ++ b) = backoffCount a + backoffCount b := by
  simp [backoffCount, List.filter_append]

theorem handlerCalls_append (a b : List Event) :
    handlerCalls (a ++ b) = handlerCalls a ++ handlerCalls b := by
  simp [handlerCalls]

/-- Case analysis on one execution of the loop body: it either breaks or
continues; in both cases exactly one executor invocation is recorded
(carrying the reader position at the time of the call), the reader ends
rewound to offset 0, and the message list only grows.  A `break` leaves
`numTries` alone and never records a backoff; a `continue` increments
`numTries` and records a backoff only when the attempt index is still
below `retryCount`. -/
theorem doStep_cases (c : HttpClient) (outc : Nat → Outcome) (cons : Nat → Nat)
    (req : Request) (st : LoopState) (i : Nat) :
    (∃ st2, doStep c outc cons req st i = StepRes.brk st2 ∧
      st2.trace = st.trace ++ [Event.exec i st.bodyPos] ∧
      st2.numTries = st.numTries ∧
      st2.bodyPos = st.bodyPos.map (fun _ => 0) ∧
      ∃ e, st2.multiErr = st.multiErr ++ e) ∨
    (∃ st2 bo, doStep c outc cons req st i = StepRes.cont st2 ∧
      st2.trace = (st.trace ++ [Event.exec i st.bodyPos]) ++ bo ∧
      (bo = [] ∨ (bo = [Event.backoff i] ∧ (i : Int) < c.retryCount)) ∧
      st2.numTries = st.numTries + 1 ∧
      st2.bodyPos = st.bodyPos.map (fun _ => 0) ∧
      ∃ e, st2.multiErr = st.multiErr ++ e) := by
  rcases houtc : outc i with r | ⟨r, msg⟩
  · -- response received
    rcases hcr : c.checkRetry with _ | f
    · -- no check-retry configured: default retry policy
      by_cases hro : 0 < c.retryCount ∧ (i : Int) < c.retryCount
      · by_cases h5 : (500 : Int) ≤ r.statusCode
        · rcases hds : doStep c outc cons req st i with st2 | st2 <;>
            simp only [doStep, houtc, hcr] at hds <;> simp [hro, h5] at hds
          refine Or.inr ⟨st2, [Event.backoff i], rfl, ?_, Or.inr ⟨rfl, hro.2⟩, ?_, ?_, [], ?_⟩ <;>
            simp [← hds] <;> rcases hsb : st.bodyPos with _ | p <;> simp [hsb]
        · rcases hds : doStep c outc cons req st i with st2 | st2 <;>
            simp only [doStep, houtc, hcr] at hds <;> simp [hro, h5] at hds
          refine Or.inl ⟨st2, rfl, ?_, ?_, ?_, [], ?_⟩ <;>
            simp [← hds] <;> rcases hsb : st.bodyPos with _ | p <;> simp [hsb]
      · rcases hds : doStep c outc cons req st i with st2 | st2 <;>
          simp only [doStep, houtc, hcr] at hds <;> simp [hro] at hds
        refine Or.inl ⟨st2, rfl, ?_, ?_, ?_, [], ?_⟩ <;>
          simp [← hds] <;> rcases hsb : st.bodyPos with _ | p <;> simp [hsb]
    · -- check-retry configured
      by_cases hro : 0 < c.retryCount ∧ (i : Int) < c.retryCount
      · rcases hch : f req (some r) none with ⟨ok, ce⟩
        cases ok
        · cases ce with
          | none =>
            rcases hds : doStep c outc cons req st i with st2 | st2 <;>
              simp only [doStep, houtc, hcr] at hds <;> simp [hro, hch] at hds
            refine Or.inl ⟨st2, rfl, ?_, ?_, ?_, [], ?_⟩ <;>
              simp [← hds] <;> rcases hsb : st.bodyPos with _ | p <;> simp [hsb]
          | some ce =>
            rcases hds : doStep c outc cons req st i with st2 | st2 <;>
              simp only [doStep, houtc, hcr] at hds <;> simp [hro, hch] at hds
            refine Or.inl ⟨st2, rfl, ?_, ?_, ?_, [ce], ?_⟩ <;>
              simp [← hds] <;> rcases hsb : st.bodyPos with _ | p <;> simp [hsb]
        · rcases hds : doStep c outc cons req st i with st2 | st2 <;>
            simp only [doStep, houtc, hcr] at hds <;> simp [hro, hch] at hds
          refine Or.inr ⟨st2, [Event.backoff i], rfl, ?_, Or.inr ⟨rfl, hro.2⟩, ?_, ?_, [], ?_⟩ <;>
            simp [← hds] <;> rcases hsb : st.bodyPos with _ | p <;> simp [hsb]
      · rcases hds : doStep c outc cons req st i with st2 | st2 <;>
          simp only [doStep, houtc, hcr] at hds <;> simp [hro] at hds
        refine Or.inl ⟨st2, rfl, ?_, ?_, ?_, [], ?_⟩ <;>
          simp [← hds] <;> rcases hsb : st.bodyPos with _ | p <;> simp [hsb]
  · -- transport error
    rcases hcr : c.checkRetry with _ | f
    · -- no check-retry: always continue
      by_cases hro : 0 < c.retryCount ∧ (i : Int) < c.retryCount
      · rcases hds : doStep c outc cons req st i with st2 | st2 <;>
          simp only [doStep, houtc, hcr] at hds <;> simp [hro] at hds
        refine Or.inr ⟨st2, [Event.backoff i], rfl, ?_, Or.inr ⟨rfl, hro.2⟩, ?_, ?_, [msg], ?_⟩ <;>
          simp [← hds] <;> rcases hsb : st.bodyPos with _ | p <;> simp [hsb]
      · rcases hds : doStep c outc cons req st i with st2 | st2 <;>
          simp only [doStep, houtc, hcr] at hds <;> simp [hro] at hds
        refine Or.inr ⟨st2, [], rfl, ?_, Or.inl rfl, ?_, ?_, [msg], ?_⟩ <;>
          simp [← hds] <;> rcases hsb : st.bodyPos with _ | p <;> simp [hsb]
    · rcases hch : f req r (some msg) with ⟨ok, ce⟩
      cases ok
      · cases ce with
        | none =>
          rcases hds : doStep c outc cons req st i with st2 | st2 <;>
            simp only [doStep, houtc, hcr] at hds <;> simp [hch] at hds
          refine Or.inl ⟨st2, rfl, ?_, ?_, ?_, [msg], ?_⟩ <;>
            simp [← hds] <;> rcases hsb : st.bodyPos with _ | p <;> simp [hsb]
        | some ce =>
          rcases hds : doStep c outc cons req st i with st2 | st2 <;>
            simp only [doStep, houtc, hcr] at hds <;> simp [hch] at hds
          refine Or.inl ⟨st2, rfl, ?_, ?_, ?_, [msg, ce], ?_⟩ <;>
            simp [← hds] <;> rcases hsb : st.bodyPos with _ | p <;> simp [hsb]
      · by_cases hro : 0 < c.retryCount ∧ (i : Int) < c.retryCount
        · rcases hds : doStep c outc cons req st i with st2 | st2 <;>
            simp only [doStep, houtc, hcr] at hds <;> simp [hro, hch] at hds
          refine Or.inr ⟨st2, [Event.backoff i], rfl, ?_, Or.inr ⟨rfl, hro.2⟩, ?_, ?_, [msg], ?_⟩ <;>
            simp [← hds] <;> rcases hsb : st.bodyPos with _ | p <;> simp [hsb]
        · rcases hds : doStep c outc cons req st i with st2 | st2 <;>
            simp only [doStep, houtc, hcr] at hds <;> simp [hro, hch] at hds
          refine Or.inr ⟨st2, [], rfl, ?_, Or.inl rfl, ?_, ?_, [msg], ?_⟩ <;>
            simp [← hds] <;> rcases hsb : st.bodyPos with _ | p <;> simp [hsb]

/-- Once the loop guard fails, the loop returns the state unchanged. -/
theorem doLoop_guard_false (c : HttpClient) (outc : Nat → Outcome) (cons : Nat → Nat)
    (req : Request) (st : LoopState) (i : Nat) (fuel : Nat)
    (h : ¬ ((i : Int) ≤ c.retryCount)) :
    doLoop c outc cons req st i fuel = st := by
  cases fuel <;> simp [doLoop, h]

/-- The loop only appends to the trace. -/
theorem doLoop_trace_append (c : HttpClient) (outc : Nat → Outcome) (cons : Nat → Nat)
    (req : Request) :
    ∀ fuel i st, ∃ t, (doLoop c outc cons req st i fuel).trace = st.trace ++ t := by
  intro fuel
  induction fuel with
  | zero => intro i st; exact ⟨[], by simp [doLoop]⟩
  | succ fuel ih =>
    intro i st
    by_cases hg : (i : Int) ≤ c.retryCount
    · rcases doStep_cases c outc cons req st i with
        ⟨st2, hds, htr, _, _, _⟩ | ⟨st2, bo, hds, htr, _, _, _, _⟩
      · exact ⟨[Event.exec i st.bodyPos], by simp [doLoop, hg, hds, htr]⟩
      · rcases ih (i + 1) st2 with ⟨t, ht⟩
        refine ⟨Event.exec i st.bodyPos :: bo ++ t, ?_⟩
        simp [doLoop, hg, hds, ht, htr]
    · exact ⟨[], by simp [doLoop, hg]⟩

/-- Whenever the guard holds and there is fuel, the loop records an executor
invocation at the current attempt index. -/
theorem doLoop_exec_mem (c : HttpClient) (outc : Nat → Outcome) (cons : Nat → Nat)
    (req : Request) (st : LoopState) (i : Nat) (fuel : Nat)
    (hg : (i : Int) ≤ c.retryCount) :
    ∃ p, Event.exec i p ∈ (doLoop c outc cons req st i (fuel + 1)).trace := by
  rcases doStep_cases c outc cons req st i with
    ⟨st2, hds, htr, _, _, _⟩ | ⟨st2, bo, hds, htr, _, _, _, _⟩
  · exact ⟨st.bodyPos, by simp [doLoop, hg, hds, htr]⟩
  · rcases doLoop_trace_append c outc cons req fuel (i + 1) st2 with ⟨t, ht⟩
    refine ⟨st.bodyPos, ?_⟩
    simp [doLoop, hg, hds, ht, htr]

/-- Any fuel of at least `(retryCount + 1 - i).toNat` gives the same result:
the loop genuinely exits through its guard or through a `break`, never by
running out of fuel. -/
theorem doLoop_add_fuel (c : HttpClient) (outc : Nat → Outcome) (cons : Nat → Nat)
    (req : Request) :
    ∀ fuel (i : Nat) (st : LoopState), (c.retryCount + 1 - (i : Int)).toNat ≤ fuel → ∀ extra,
      doLoop c outc cons req st i (fuel + extra) = doLoop c outc cons req st i fuel := by
  intro fuel
  induction fuel with
  | zero =>
    intro i st hfuel extra
    have hg : ¬ ((i : Int) ≤ c.retryCount) := by omega
    rw [doLoop_guard_false c outc cons req st i _ hg,
      doLoop_guard_false c outc cons req st i _ hg]
  | succ fuel ih =>
    intro i st hfuel extra
    by_cases hg : (i : Int) ≤ c.retryCount
    · have hrw : fuel + 1 + extra = (fuel + extra) + 1 := by omega
      rw [hrw]
      rcases doStep_cases c outc cons req st i with
        ⟨st2, hds, _, _, _, _⟩ | ⟨st2, bo, hds, _, _, _, _, _⟩
      · simp [doLoop, hg, hds]
      · simp only [doLoop, hg, if_true, hds]
        exact ih (i + 1) st2 (by omega) extra
    · rw [doLoop_guard_false c outc cons req st i _ hg,
        doLoop_guard_false c outc cons req st i _ hg]

/-- The loop never records an error-handler call. -/
theorem doLoop_handlerCalls (c : HttpClient) (outc : Nat → Outcome) (cons : Nat → Nat)
    (req : Request) :
    ∀ fuel i st, handlerCalls (doLoop c outc cons req st i fuel).trace =
      handlerCalls st.trace := by
  intro fuel
  induction fuel with
  | zero => intro i st; simp [doLoop]
  | succ fuel ih =>
    intro i st
    by_cases hg : (i : Int) ≤ c.retryCount
    · rcases doStep_cases c outc cons req st i with
        ⟨st2, hds, htr, _, _, _⟩ | ⟨st2, bo, hds, htr, hbo, _, _, _⟩
      · simp [doLoop, hg, hds, htr, handlerCalls_append, handlerCalls]
      · simp only [doLoop, hg, if_true, hds]
        rw [ih (i + 1) st2, htr]
        rcases hbo with rfl | ⟨rfl, _⟩ <;>
          simp [handlerCalls_append, handlerCalls]
    · simp [doLoop, hg]

/-- Each unit of fuel permits at most one executor invocation. -/
theorem doLoop_execCount_le (c : HttpClient) (outc : Nat → Outcome) (cons : Nat → Nat)
    (req : Request) :
    ∀ fuel i st, execCount (doLoop c outc cons req st i fuel).trace ≤
      execCount st.trace + fuel := by
  intro fuel
  induction fuel with
  | zero => intro i st; simp [doLoop]
  | succ fuel ih =>
    intro i st
    by_cases hg : (i : Int) ≤ c.retryCount
    · rcases doStep_cases c outc cons req st i with
        ⟨st2, hds, htr, _, _, _⟩ | ⟨st2, bo, hds, htr, hbo, _, _, _⟩
      · simp only [doLoop, hg, if_true, hds]
        rw [htr]
        simp [execCount_append, execCount]
      · simp only [doLoop, hg, if_true, hds]
        have h2 := ih (i + 1) st2
        have h3 : execCount st2.trace = execCount st.trace + 1 := by
          rw [htr]
          rcases hbo with rfl | ⟨rfl, _⟩ <;> simp [execCount_append, execCount]
        omega
    · simp [doLoop, hg]

/-- `numTries` counts the iterations that ended in `continue`: it equals the
number of executor invocations recorded so far when the previous iteration
continued (or none ran), and lags it by one when the loop ended in `break`. -/
theorem doLoop_numTries (c : HttpClient) (outc : Nat → Outcome) (cons : Nat → Nat)
    (req : Request) :
    ∀ fuel (i : Nat) (st : LoopState), st.numTries = execCount st.trace →
      ((doLoop c outc cons req st i fuel).numTries =
          execCount (doLoop c outc cons req st i fuel).trace ∨
        (doLoop c outc cons req st i fuel).numTries + 1 =
          execCount (doLoop c outc cons req st i fuel).trace) := by
  intro fuel
  induction fuel with
  | zero => intro i st h; left; simpa [doLoop] using h
  | succ fuel ih =>
    intro i st h
    by_cases hg : (i : Int) ≤ c.retryCount
    · rcases doStep_cases c outc cons req st i with
        ⟨st2, hds, htr, hnt, _, _⟩ | ⟨st2, bo, hds, htr, hbo, hnt, _, _⟩
      · right
        simp only [doLoop, hg, if_true, hds]
        rw [htr, hnt, execCount_append, h]
        simp [execCount]
      · simp only [doLoop, hg, if_true, hds]
        apply ih (i + 1) st2
        rw [htr, hnt, h]
        rcases hbo with rfl | ⟨rfl, _⟩ <;> simp [execCount_append, execCount]
    · left
      rw [doLoop_guard_false c outc cons req st i _ hg]
      exact h

/-- When the retained body reader is rewound (position 0) at loop entry,
every executor invocation the loop records sees position 0. -/
theorem doLoop_bodyPos (c : HttpClient) (outc : Nat → Outcome) (cons : Nat → Nat)
    (req : Request) :
    ∀ fuel (i : Nat) (st : LoopState), st.bodyPos = some 0 →
      (∀ j p, Event.exec j p ∈ st.trace → p = some 0) →
      ∀ j p, Event.exec j p ∈ (doLoop c outc cons req st i fuel).trace → p = some 0 := by
  intro fuel
  induction fuel with
  | zero => intro i st _ h; simpa [doLoop] using h
  | succ fuel ih =>
    intro i st hbp h
    by_cases hg : (i : Int) ≤ c.retryCount
    · rcases doStep_cases c outc cons req st i with
        ⟨st2, hds, htr, _, hb2, _⟩ | ⟨st2, bo, hds, htr, hbo, _, hb2, _⟩
      · simp only [doLoop, hg, if_true, hds]
        intro j p hmem
        rw [htr] at hmem
        rcases List.mem_append.1 hmem with hm | hm
        · exact h j p hm
        · simp only [List.mem_singleton, Event.exec.injEq] at hm
          rw [hm.2, hbp]
      · simp only [doLoop, hg, if_true, hds]
        apply ih (i + 1) st2
        · rw [hb2, hbp]; rfl
        · intro j p hmem
          rw [htr] at hmem
          rcases List.mem_append.1 hmem with hm | hm
          · rcases List.mem_append.1 hm with hm2 | hm2
            · exact h j p hm2
            · simp only [List.mem_singleton, Event.exec.injEq] at hm2
              rw [hm2.2, hbp]
          · rcases hbo with rfl | ⟨rfl, _⟩ <;> simp at hm
    · intro j p hmem
      rw [doLoop_guard_false c outc cons req st i _ hg] at hmem
      exact h j p hmem

/-- Every backoff the loop records is followed by an executor invocation at
the next attempt index: backoff happens only when a further attempt will be
made.  The invariant allows one pending backoff (at the attempt index the
loop is about to run). -/
theorem doLoop_backoff_exec (c : HttpClient) (outc : Nat → Outcome) (cons : Nat → Nat)
    (req : Request) :
    ∀ fuel (i : Nat) (st : LoopState), (c.retryCount + 1 - (i : Int)).toNat ≤ fuel →
      (∀ j, Event.backoff j ∈ st.trace →
        (j : Int) < c.retryCount ∧
          ((∃ p, Event.exec (j + 1) p ∈ st.trace) ∨ j + 1 = i)) →
      ∀ j, Event.backoff j ∈ (doLoop c outc cons req st i fuel).trace →
        ∃ p, Event.exec (j + 1) p ∈ (doLoop c outc cons req st i fuel).trace := by
  intro fuel
  induction fuel with
  | zero =>
    intro i st hfuel h j hmem
    rw [doLoop] at hmem ⊢
    rcases (h j hmem).2 with hp | hp
    · exact hp
    · exfalso
      have := (h j hmem).1
      omega
  | succ fuel ih =>
    intro i st hfuel h
    by_cases hg : (i : Int) ≤ c.retryCount
    · rcases doStep_cases c outc cons req st i with
        ⟨st2, hds, htr, _, _, _⟩ | ⟨st2, bo, hds, htr, hbo, _, _, _⟩
      · simp only [doLoop, hg, if_true, hds]
        intro j hmem
        rw [htr] at hmem ⊢
        rcases List.mem_append.1 hmem with hm | hm
        · rcases (h j hm).2 with ⟨p, hp⟩ | hp
          · exact ⟨p, List.mem_append_left _ hp⟩
          · exact ⟨st.bodyPos, by simp [hp]⟩
        · simp at hm
      · simp only [doLoop, hg, if_true, hds]
        apply ih (i + 1) st2 (by omega)
        intro j hmem
        rw [htr] at hmem
        rcases List.mem_append.1 hmem with hm | hm
        · rcases List.mem_append.1 hm with hm2 | hm2
          · rcases (h j hm2).2 with ⟨p, hp⟩ | hp
            · refine ⟨(h j hm2).1, Or.inl ⟨p, ?_⟩⟩
              rw [htr]
              exact List.mem_append_left _ (List.mem_append_left _ hp)
            · exact ⟨(h j hm2).1, Or.inl ⟨st.bodyPos, by rw [htr, hp]; simp⟩⟩
          · simp at hm2
        · rcases hbo with rfl | ⟨rfl, hlt⟩
          · simp at hm
          · simp only [List.mem_singleton, Event.backoff.injEq] at hm
            subst hm
            exact ⟨hlt, Or.inr rfl⟩
    · intro j hmem
      rw [doLoop_guard_false c outc cons req st i _ hg] at hmem ⊢
      rcases (h j hmem).2 with hp | hp
      · exact hp
      · exfalso
        have := (h j hmem).1
        omega

/-- With no check-retry configured, a response with status ≥ 500 while
attempts remain makes the body continue, recording a backoff. -/
theorem doStep_ok_noCheck_cont (c : HttpClient) (outc : Nat → Outcome) (cons : Nat → Nat)
    (req : Request) (st : LoopState) (i : Nat) (r : Response)
    (hcr : c.checkRetry = none) (hout : outc i = Outcome.ok r)
    (h5 : (500 : Int) ≤ r.statusCode) (hlt : (i : Int) < c.retryCount) :
    ∃ st2, doStep c outc cons req st i = StepRes.cont st2 ∧
      st2.trace = st.trace ++ [Event.exec i st.bodyPos, Event.backoff i] := by
  have hro : 0 < c.retryCount ∧ (i : Int) < c.retryCount := ⟨by omega, hlt⟩
  rcases hds : doStep c outc cons req st i with st2 | st2 <;>
    simp only [doStep, hout, hcr] at hds <;> simp [hro, h5] at hds
  exact ⟨st2, rfl, by simp [← hds]⟩

/-- With no check-retry configured, a response breaks the loop unless its
status is ≥ 500 with attempts remaining. -/
theorem doStep_ok_noCheck_brk (c : HttpClient) (outc : Nat → Outcome) (cons : Nat → Nat)
    (req : Request) (st : LoopState) (i : Nat) (r : Response)
    (hcr : c.checkRetry = none) (hout : outc i = Outcome.ok r)
    (hn : ¬ ((500 : Int) ≤ r.statusCode ∧ (i : Int) < c.retryCount)) :
    ∃ st2, doStep c outc cons req st i = StepRes.brk st2 ∧
      st2.trace = st.trace ++ [Event.exec i st.bodyPos] := by
  by_cases h5 : (500 : Int) ≤ r.statusCode
  · have hro : ¬ (0 < c.retryCount ∧ (i : Int) < c.retryCount) := by
      intro hh
      exact hn ⟨h5, hh.2⟩
    rcases hds : doStep c outc cons req st i with st2 | st2 <;>
      simp only [doStep, hout, hcr] at hds <;> simp [hro, h5] at hds
    exact ⟨st2, rfl, by simp [← hds]⟩
  · rcases hds : doStep c outc cons req st i with st2 | st2 <;>
      simp only [doStep, hout, hcr] at hds <;> simp [h5] at hds
    exact ⟨st2, rfl, by simp [← hds]⟩

/-- With no check-retry configured, a transport error always makes the body
continue. -/
theorem doStep_fail_noCheck (c : HttpClient) (outc : Nat → Outcome) (cons : Nat → Nat)
    (req : Request) (st : LoopState) (i : Nat) (r : Option Response) (msg : String)
    (hcr : c.checkRetry = none) (hout : outc i = Outcome.fail r msg) :
    ∃ st2 bo, doStep c outc cons req st i = StepRes.cont st2 ∧
      st2.trace = (st.trace ++ [Event.exec i st.bodyPos]) ++ bo ∧
      (bo = [] ∨ bo = [Event.backoff i]) := by
  by_cases hro : 0 < c.retryCount ∧ (i : Int) < c.retryCount
  · rcases hds : doStep c outc cons req st i with st2 | st2 <;>
      simp only [doStep, hout, hcr] at hds <;> simp [hro] at hds
    exact ⟨st2, [Event.backoff i], rfl, by simp [← hds], Or.inr rfl⟩
  · rcases hds : doStep c outc cons req st i with st2 | st2 <;>
      simp only [doStep, hout, hcr] at hds <;> simp [hro] at hds
    exact ⟨st2, [], rfl, by simp [← hds], Or.inl rfl⟩

/-- The default retry policy, as the loop enacts it when no check-retry is
configured: an attempt that received a response is followed by a further
attempt exactly when the status code is ≥ 500 and attempt indices below
`retryCount` remain. -/
theorem doLoop_default_policy (c : HttpClient) (outc : Nat → Outcome) (cons : Nat → Nat)
    (req : Request) (hcr : c.checkRetry = none) :
    ∀ fuel (i : Nat) (st : LoopState), (c.retryCount + 1 - (i : Int)).toNat ≤ fuel →
      (∀ j p, Event.exec j p ∈ st.trace → j < i) →
      ∀ j r, outc j = Outcome.ok r → i ≤ j →
        (∃ p, Event.exec j p ∈ (doLoop c outc cons req st i fuel).trace) →
        ((∃ q, Event.exec (j + 1) q ∈ (doLoop c outc cons req st i fuel).trace) ↔
          ((500 : Int) ≤ r.statusCode ∧ (j : Int) < c.retryCount)) := by
  intro fuel
  induction fuel with
  | zero =>
    intro i st hfuel hidx j r hout hij hex
    rcases hex with ⟨p, hp⟩
    rw [doLoop] at hp
    exact absurd (hidx j p hp) (by omega)
  | succ fuel ih =>
    intro i st hfuel hidx j r hout hij hex
    by_cases hg : (i : Int) ≤ c.retryCount
    · rcases houti : outc i with r0 | ⟨r0, msg0⟩
      · by_cases hcond : (500 : Int) ≤ r0.statusCode ∧ (i : Int) < c.retryCount
        · obtain ⟨st2, hds, htr⟩ :=
            doStep_ok_noCheck_cont c outc cons req st i r0 hcr houti hcond.1 hcond.2
          have hidx2 : ∀ j2 p2, Event.exec j2 p2 ∈ st2.trace → j2 < i + 1 := by
            intro j2 p2 hm
            rw [htr] at hm
            rcases List.mem_append.1 hm with hm2 | hm2
            · exact Nat.lt_succ_of_lt (hidx _ _ hm2)
            · simp only [List.mem_cons, List.mem_singleton, Event.exec.injEq] at hm2
              rcases hm2 with ⟨rfl, -⟩ | hm2
              · omega
              · exact absurd hm2 (by simp)
          simp only [doLoop, hg, if_true, hds] at hex ⊢
          rcases Nat.eq_or_lt_of_le hij with rfl | hij2
          · have hrr : r = r0 := by
              rw [houti] at hout
              injection hout with hh
              exact hh.symm
            subst hrr
            constructor
            · intro _
              exact ⟨hcond.1, hcond.2⟩
            · intro _
              obtain ⟨f2, rfl⟩ : ∃ k, fuel = k + 1 := ⟨fuel - 1, by omega⟩
              exact doLoop_exec_mem c outc cons req st2 (i + 1) f2 (by omega)
          · exact ih (i + 1) st2 (by omega) hidx2 j r hout (by omega) hex
        · obtain ⟨st2, hds, htr⟩ :=
            doStep_ok_noCheck_brk c outc cons req st i r0 hcr houti hcond
          simp only [doLoop, hg, if_true, hds] at hex ⊢
          rcases hex with ⟨p, hp⟩
          rw [htr] at hp
          rcases List.mem_append.1 hp with hm | hm
          · exact absurd (hidx j p hm) (by omega)
          · simp only [List.mem_singleton, Event.exec.injEq] at hm
            obtain ⟨rfl, -⟩ := hm
            have hrr : r = r0 := by
              rw [houti] at hout
              injection hout with hh
              exact hh.symm
            subst hrr
            constructor
            · intro ⟨q, hq⟩
              rw [htr] at hq
              rcases List.mem_append.1 hq with hm2 | hm2
              · exact absurd (hidx _ q hm2) (by omega)
              · simp only [List.mem_singleton, Event.exec.injEq] at hm2
                omega
            · intro hrhs
              exact absurd hrhs hcond
      · obtain ⟨st2, bo, hds, htr, hbo⟩ :=
          doStep_fail_noCheck c outc cons req st i r0 msg0 hcr houti
        have hidx2 : ∀ j2 p2, Event.exec j2 p2 ∈ st2.trace → j2 < i + 1 := by
          intro j2 p2 hm
          rw [htr] at hm
          rcases List.mem_append.1 hm with hm2 | hm2
          · rcases List.mem_append.1 hm2 with hm3 | hm3
            · exact Nat.lt_succ_of_lt (hidx _ _ hm3)
            · simp only [List.mem_singleton, Event.exec.injEq] at hm3
              omega
          · rcases hbo with rfl | rfl <;> simp at hm2
        simp only [doLoop, hg, if_true, hds] at hex ⊢
        rcases Nat.eq_or_lt_of_le hij with rfl | hij2
        · rw [houti] at hout
          cases hout
        · exact ih (i + 1) st2 (by omega) hidx2 j r hout (by omega) hex
    · rw [doLoop_guard_false c outc cons req st i _ hg] at hex ⊢
      rcases hex with ⟨p, hp⟩
      exact absurd (hidx j p hp) (by omega)

/-- With no check-retry configured and the executor always answering with a
fixed status ≥ 500 response, the loop uses every remaining attempt. -/
theorem doLoop_all500_execCount (c : HttpClient) (outc : Nat → Outcome) (cons : Nat → Nat)
    (req : Request) (r : Response)
    (hcr : c.checkRetry = none) (hout : ∀ j, outc j = Outcome.ok r)
    (h5 : (500 : Int) ≤ r.statusCode) :
    ∀ fuel (i : Nat) (st : LoopState), (c.retryCount + 1 - (i : Int)).toNat ≤ fuel →
      (i : Int) ≤ c.retryCount →
      execCount (doLoop c outc cons req st i fuel).trace =
        execCount st.trace + (c.retryCount + 1 - (i : Int)).toNat := by
  intro fuel
  induction fuel with
  | zero =>
    intro i st hfuel hg
    omega
  | succ fuel ih =>
    intro i st hfuel hg
    by_cases hlt : (i : Int) < c.retryCount
    · obtain ⟨st2, hds, htr⟩ :=
        doStep_ok_noCheck_cont c outc cons req st i r hcr (hout i) h5 hlt
      simp only [doLoop, hg, if_true, hds]
      rw [ih (i + 1) st2 (by omega) (by omega), htr, execCount_append]
      simp only [execCount, List.filter, List.length]
      omega
    · obtain ⟨st2, hds, htr⟩ :=
        doStep_ok_noCheck_brk c outc cons req st i r hcr (hout i) (by tauto)
      simp only [doLoop, hg, if_true, hds]
      rw [htr, execCount_append]
      have hone : execCount [Event.exec i st.bodyPos] = 1 := rfl
      omega

/-- `Do` and the loop's final state, with no error handler configured. -/
theorem Do_no_handler (c : HttpClient) (outc : Nat → Outcome) (cons : Nat → Nat)
    (req : Request) (heh : c.errorHandler = none) :
    (Do c outc cons req).finalState = loopResult c outc cons req ∧
    (Do c outc cons req).resp = (loopResult c outc cons req).resp ∧
    (Do c outc cons req).err = HasError (loopResult c outc cons req).multiErr := by
  refine ⟨?_, ?_, ?_⟩ <;> simp [Do, heh, loopResult]

/-- `Do` and the loop's final state, with an error handler configured. -/
theorem Do_with_handler (c : HttpClient) (outc : Nat → Outcome) (cons : Nat → Nat)
    (req : Request) (h : ErrorHandler) (heh : c.errorHandler = some h) :
    (Do c outc cons req).finalState =
      { loopResult c outc cons req with
          trace := (loopResult c outc cons req).trace ++
            [Event.handlerCall (loopResult c outc cons req).numTries] } ∧
    (Do c outc cons req).resp =
      (h (loopResult c outc cons req).resp
        (HasError (loopResult c outc cons req).multiErr)
        (loopResult c outc cons req).numTries).1 ∧
    (Do c outc cons req).err =
      (h (loopResult c outc cons req).resp
        (HasError (loopResult c outc cons req).multiErr)
        (loopResult c outc cons req).numTries).2 := by
  refine ⟨?_, ?_, ?_⟩ <;> simp [Do, heh, loopResult]

/-- The request `Do` hands to the executor and returns is the set-up one. -/
theorem Do_req (c : HttpClient) (outc : Nat → Outcome) (cons : Nat → Nat)
    (req : Request) : (Do c outc cons req).req = (doSetup req).1 := by
  cases heh : c.errorHandler <;> simp [Do, heh]

/-- The executor-invocation count of `Do`'s final trace is that of the loop
(the handler-call event, when present, is not an executor invocation). -/
theorem Do_execCount (c : HttpClient) (outc : Nat → Outcome) (cons : Nat → Nat)
    (req : Request) :
    execCount (Do c outc cons req).finalState.trace =
      execCount (loopResult c outc cons req).trace := by
  cases heh : c.errorHandler <;>
    simp [Do, heh, loopResult, execCount_append, execCount]

/-- Likewise for the backoff-invocation count. -/
theorem Do_backoffCount (c : HttpClient) (outc : Nat → Outcome) (cons : Nat → Nat)
    (req : Request) :
    backoffCount (Do c outc cons req).finalState.trace =
      backoffCount (loopResult c outc cons req).trace := by
  cases heh : c.errorHandler <;>
    simp [Do, heh, loopResult, backoffCount_append, backoffCount]

/-- Executor and backoff events of `Do`'s final trace are those of the loop. -/
theorem Do_mem_trace (c : HttpClient) (outc : Nat → Outcome) (cons : Nat → Nat)
    (req : Request) :
    (∀ j p, (Event.exec j p ∈ (Do c outc cons req).finalState.trace ↔
      Event.exec j p ∈ (loopResult c outc cons req).trace)) ∧
    (∀ j, (Event.backoff j ∈ (Do c outc cons req).finalState.trace ↔
      Event.backoff j ∈ (loopResult c outc cons req).trace)) := by
  cases heh : c.errorHandler <;>
    constructor <;> intro j <;> simp [Do, heh, loopResult]

/-- The loop's final `multiErr` and `numTries` agree with `Do`'s final state
whether or not a handler is configured. -/
theorem Do_finalState_fields (c : HttpClient) (outc : Nat → Outcome) (cons : Nat → Nat)
    (req : Request) :
    (Do c outc cons req).finalState.multiErr = (loopResult c outc cons req).multiErr ∧
    (Do c outc cons req).finalState.numTries = (loopResult c outc cons req).numTries ∧
    (Do c outc cons req).finalState.resp = (loopResult c outc cons req).resp := by
  cases heh : c.errorHandler <;>
    refine ⟨?_, ?_, ?_⟩ <;> simp [Do, heh, loopResult]

/-! ### Claim theorems -/

/-- C9: for every configuration with a negative retry count and no error
handler, `Do` invokes the executor zero times and returns a nil response
together with a nil error. -/
theorem c9_negative_retry_count (c : HttpClient) (outc : Nat → Outcome) (cons : Nat → Nat)
    (req : Request) (hrc : c.retryCount < 0) (heh : c.errorHandler = none) :
    (Do c outc cons req).resp = none ∧ (Do c outc cons req).err = none ∧
    execCount (Do c outc cons req).finalState.trace = 0 := by
  obtain ⟨hfs, hresp, herr⟩ := Do_no_handler c outc cons req heh
  have hfuel : (c.retryCount + 1).toNat = 0 := by omega
  have hloop : loopResult c outc cons req = initState (doSetup req).2 := by
    rw [loopResult, hfuel]
    rfl
  refine ⟨?_, ?_, ?_⟩
  · rw [hresp, hloop]; rfl
  · rw [herr, hloop]; rfl
  · rw [Do_execCount, hloop]; rfl

/-- Witness for C9 at a concrete input: retry count -1, no handler. -/
theorem c9_witness :
    exCfgNeg.retryCount < 0 ∧ exCfgNeg.errorHandler = none ∧
    ((Do exCfgNeg exOk200 exConsume exReq).resp = none ∧
      (Do exCfgNeg exOk200 exConsume exReq).err = none ∧
      execCount (Do exCfgNeg exOk200 exConsume exReq).finalState.trace = 0) :=
  ⟨by decide, rfl, c9_negative_retry_count exCfgNeg exOk200 exConsume exReq (by decide) rfl⟩

/-- C4: with no error handler configured, `Do`'s error is the multi-error
aggregate of the accumulated messages, and it is nil exactly when no message
was accumulated during the loop. -/
theorem c4_error_aggregate (c : HttpClient) (outc : Nat → Outcome) (cons : Nat → Nat)
    (req : Request) (heh : c.errorHandler = none) :
    (Do c outc cons req).err = HasError (Do c outc cons req).finalState.multiErr ∧
    ((Do c outc cons req).err = none ↔ (Do c outc cons req).finalState.multiErr = []) := by
  obtain ⟨hfs, _, herr⟩ := Do_no_handler c outc cons req heh
  constructor
  · rw [herr, hfs]
  · rw [herr, hfs]
    cases hm : (loopResult c outc cons req).multiErr <;> simp [HasError, hm]

/-- Witness for C4 at two concrete runs: a failing executor yields a non-nil
aggregate; a succeeding one yields nil. -/
theorem c4_witness :
    exBase.errorHandler = none ∧
    ((Do exBase exFailOutcomes exConsume exReq).err =
        HasError (Do exBase exFailOutcomes exConsume exReq).finalState.multiErr ∧
      ((Do exBase exFailOutcomes exConsume exReq).err = none ↔
        (Do exBase exFailOutcomes exConsume exReq).finalState.multiErr = [])) ∧
    (Do exBase exFailOutcomes exConsume exReq).err = some ["refused"] ∧
    (Do exBase exOk200 exConsume exReq).err = none :=
  ⟨rfl, c4_error_aggregate exBase exFailOutcomes exConsume exReq rfl, by decide, by decide⟩

/-- C10: `Do` mutates the request before the first attempt: `Close` is set,
a present body is replaced by the NopCloser wrapper over the in-memory copy
of the fully read original, and method, URL and headers are untouched. -/
theorem c10_request_mutation (c : HttpClient) (outc : Nat → Outcome) (cons : Nat → Nat)
    (req : Request) :
    (Do c outc cons req).req.method = req.method ∧
    (Do c outc cons req).req.url = req.url ∧
    (Do c outc cons req).req.headers = req.headers ∧
    (Do c outc cons req).req.close = true ∧
    (Do c outc cons req).req.body = req.body.map (fun b => Body.nopCloser (readAll b)) := by
  rw [Do_req]
  cases hb : req.body <;> refine ⟨?_, ?_, ?_, ?_, ?_⟩ <;> simp [doSetup, hb]

/-- C3: with a non-negative retry count the loop terminates — adding fuel
beyond `retryCount + 1` iterations never changes the result, i.e. the loop
exits through its guard or a break — and the executor is invoked at most
`retryCount + 1` times. -/
theorem c3_termination_and_bound (c : HttpClient) (outc : Nat → Outcome) (cons : Nat → Nat)
    (req : Request) (hrc : 0 ≤ c.retryCount) :
    (execCount (Do c outc cons req).finalState.trace : Int) ≤ c.retryCount + 1 ∧
    ∀ extra,
      doLoop c outc cons (doSetup req).1 (initState (doSetup req).2) 0
          ((c.retryCount + 1).toNat + extra) =
        doLoop c outc cons (doSetup req).1 (initState (doSetup req).2) 0
          (c.retryCount + 1).toNat := by
  constructor
  · rw [Do_execCount]
    have hb := doLoop_execCount_le c outc cons (doSetup req).1 ((c.retryCount + 1).toNat)
      0 (initState (doSetup req).2)
    have h0 : execCount (initState (doSetup req).2).trace = 0 := rfl
    rw [loopResult]
    omega
  · intro extra
    exact doLoop_add_fuel c outc cons (doSetup req).1 ((c.retryCount + 1).toNat) 0
      (initState (doSetup req).2) (by omega) extra

/-- Witness for C3 at a concrete input: five retries, always failing. -/
theorem c3_witness :
    (0 : Int) ≤ exCfg5.retryCount ∧
    ((execCount (Do exCfg5 exFailOutcomes exConsume exReq).finalState.trace : Int) ≤
        exCfg5.retryCount + 1 ∧
      ∀ extra,
        doLoop exCfg5 exFailOutcomes exConsume (doSetup exReq).1
            (initState (doSetup exReq).2) 0 ((exCfg5.retryCount + 1).toNat + extra) =
          doLoop exCfg5 exFailOutcomes exConsume (doSetup exReq).1
            (initState (doSetup exReq).2) 0 (exCfg5.retryCount + 1).toNat) :=
  ⟨by decide, c3_termination_and_bound exCfg5 exFailOutcomes exConsume exReq (by decide)⟩

/-- C5: with retries remaining, a first-attempt transport error that the
configured check-retry rejects with its own error terminates `Do` at once:
one executor invocation, no backoff, and exactly the transport error message
followed by the override error message accumulated. -/
theorem c5_first_attempt_rejection (c : HttpClient) (outc : Nat → Outcome) (cons : Nat → Nat)
    (req : Request) (f : CheckRetry) (r : Option Response) (msg ce : String)
    (hrc : 0 < c.retryCount) (hcr : c.checkRetry = some f)
    (hout : outc 0 = Outcome.fail r msg)
    (hf : f (doSetup req).1 r (some msg) = (false, some ce)) :
    execCount (Do c outc cons req).finalState.trace = 1 ∧
    backoffCount (Do c outc cons req).finalState.trace = 0 ∧
    (Do c outc cons req).finalState.multiErr = [msg, ce] := by
  have hstep : ∃ st2,
      doStep c outc cons (doSetup req).1 (initState (doSetup req).2) 0 = StepRes.brk st2 ∧
      st2.trace = [Event.exec 0 (doSetup req).2] ∧
      st2.multiErr = [msg, ce] := by
    rcases hds : doStep c outc cons (doSetup req).1 (initState (doSetup req).2) 0
        with st2 | st2 <;>
      simp only [doStep, hout, hcr, hf] at hds <;> simp [initState] at hds
    exact ⟨st2, rfl, by simp [← hds, initState], by simp [← hds, initState]⟩
  obtain ⟨st2, hds, htr, hme⟩ := hstep
  obtain ⟨k, hk⟩ : ∃ k, (c.retryCount + 1).toNat = k + 1 := ⟨c.retryCount.toNat, by omega⟩
  have hg : ((0 : Nat) : Int) ≤ c.retryCount := by omega
  have hloop : loopResult c outc cons req = st2 := by
    rw [loopResult, hk, doLoop, if_pos hg, hds]
  refine ⟨?_, ?_, ?_⟩
  · rw [Do_execCount, hloop, htr]; rfl
  · rw [Do_backoffCount, hloop, htr]; rfl
  · rw [(Do_finalState_fields c outc cons req).1, hloop, hme]

/-- Witness for C5 at a concrete input mirroring the repository test:
two retries, always-rejecting check-retry, failing executor. -/
theorem c5_witness :
    (0 : Int) < exCfgCheck.retryCount ∧ exCfgCheck.checkRetry = some exCheck ∧
    exFailOutcomes 0 = Outcome.fail none "refused" ∧
    exCheck (doSetup exReq).1 none (some "refused") = (false, some "check err") ∧
    (execCount (Do exCfgCheck exFailOutcomes exConsume exReq).finalState.trace = 1 ∧
      backoffCount (Do exCfgCheck exFailOutcomes exConsume exReq).finalState.trace = 0 ∧
      (Do exCfgCheck exFailOutcomes exConsume exReq).finalState.multiErr =
        ["refused", "check err"]) :=
  ⟨by decide, rfl, rfl, rfl,
    c5_first_attempt_rejection exCfgCheck exFailOutcomes exConsume exReq exCheck none
      "refused" "check err" (by decide) rfl rfl rfl⟩

/-- C2 counterexample: `WithDoer` with a nil executor is not a no-op on the
default configuration — it clears the default executor. -/
theorem c2_counterexample : WithDoer none (New []) ≠ New [] := by
  intro h
  have h2 := congrArg HttpClient.client h
  simp [WithDoer, New] at h2

/-- C2 amended: only `WithBackOff` guards against a nil value (so the
default backoff is never cleared); every other option assigns its argument
unconditionally, so a nil value clears the corresponding field — in
particular `WithDoer` with nil clears the default executor. -/
theorem c2_amended_nil_options :
    (∀ c, WithBackOff none c = c) ∧
    (∀ c d, (WithDoer d c).client = d) ∧
    ((New []).client = some stdNetHttpClient) ∧
    ((New []).backOff = some defaultBackOffPolicy) ∧
    ((WithDoer none (New [])).client = none) ∧
    (∀ c rh, (WithRequestHook rh c).requestHook = rh) ∧
    (∀ c rh, (WithResponseHook rh c).responseHook = rh) ∧
    (∀ c cr, (WithCheckRetry cr c).checkRetry = cr) ∧
    (∀ c eh, (WithErrorHook eh c).errorHook = eh) ∧
    (∀ c eh, (WithErrorHandler eh c).errorHandler = eh) ∧
    (∀ c u, (WithBaseURL u c).baseURL = u) ∧
    (∀ c n, (WithRetryCount n c).retryCount = n) :=
  ⟨fun _ => rfl, fun _ _ => rfl, rfl, rfl, rfl, fun _ _ => rfl, fun _ _ => rfl,
    fun _ _ => rfl, fun _ _ => rfl, fun _ _ => rfl, fun _ _ => rfl, fun _ _ => rfl⟩

/-- C7: when the request carries a body, `Do` replaces it with the wrapper
over the in-memory copy of its bytes, and every executor invocation of the
run observes the retained reader at offset 0 (so each attempt reads back
exactly the original bytes). -/
theorem c7_body_replay (c : HttpClient) (outc : Nat → Outcome) (cons : Nat → Nat)
    (req : Request) (b : Body) (hb : req.body = some b) :
    (Do c outc cons req).req.body = some (Body.nopCloser (readAll b)) ∧
    ∀ j p, Event.exec j p ∈ (Do c outc cons req).finalState.trace → p = some 0 := by
  constructor
  · rw [Do_req]
    simp [doSetup, hb]
  · intro j p hmem
    rw [(Do_mem_trace c outc cons req).1 j p, loopResult] at hmem
    refine doLoop_bodyPos c outc cons (doSetup req).1 ((c.retryCount + 1).toNat) 0
      (initState (doSetup req).2) ?_ ?_ j p hmem
    · simp [doSetup, hb, initState]
    · intro j2 p2 hm2
      simp [initState] at hm2

/-- Witness for C7 at a concrete input: a three-byte body, five retries,
an executor answering 500 and reading two bytes per attempt. -/
theorem c7_witness :
    exReqBody.body = some (Body.stream [1, 2, 3]) ∧
    ((Do exCfg5 exOk500 exConsume exReqBody).req.body =
        some (Body.nopCloser (readAll (Body.stream [1, 2, 3]))) ∧
      ∀ j p, Event.exec j p ∈ (Do exCfg5 exOk500 exConsume exReqBody).finalState.trace →
        p = some 0) :=
  ⟨rfl, c7_body_replay exCfg5 exOk500 exConsume exReqBody (Body.stream [1, 2, 3]) rfl⟩

/-- C6: a backoff recorded at attempt `j` is always followed by an executor
invocation at attempt `j + 1` (never on the terminal attempt), and with
retry count 0 exactly one attempt is made and backoff is never invoked. -/
theorem c6_backoff_only_before_retry (c : HttpClient) (outc : Nat → Outcome)
    (cons : Nat → Nat) (req : Request) :
    (∀ j, Event.backoff j ∈ (Do c outc cons req).finalState.trace →
      ∃ p, Event.exec (j + 1) p ∈ (Do c outc cons req).finalState.trace) ∧
    (c.retryCount = 0 →
      execCount (Do c outc cons req).finalState.trace = 1 ∧
      backoffCount (Do c outc cons req).finalState.trace = 0) := by
  constructor
  · intro j hmem
    rw [(Do_mem_trace c outc cons req).2 j, loopResult] at hmem
    have hinv : ∀ j2, Event.backoff j2 ∈ (initState (doSetup req).2).trace →
        (j2 : Int) < c.retryCount ∧
          ((∃ p, Event.exec (j2 + 1) p ∈ (initState (doSetup req).2).trace) ∨ j2 + 1 = 0) := by
      intro j2 hm2
      simp [initState] at hm2
    obtain ⟨p, hp⟩ := doLoop_backoff_exec c outc cons (doSetup req).1
      ((c.retryCount + 1).toNat) 0 (initState (doSetup req).2) (by omega) hinv j hmem
    refine ⟨p, ?_⟩
    rw [(Do_mem_trace c outc cons req).1 (j + 1) p, loopResult]
    exact hp
  · intro hrc0
    have hk : (c.retryCount + 1).toNat = 0 + 1 := by omega
    have hg : ((0 : Nat) : Int) ≤ c.retryCount := by omega
    rw [Do_execCount, Do_backoffCount]
    rcases doStep_cases c outc cons (doSetup req).1 (initState (doSetup req).2) 0 with
      ⟨st2, hds, htr, _, _, _⟩ | ⟨st2, bo, hds, htr, hbo, _, _, _⟩
    · have hloop : loopResult c outc cons req = st2 := by
        rw [loopResult, hk, doLoop, if_pos hg, hds]
      rw [hloop, htr]
      constructor <;>
        simp [execCount_append, backoffCount_append, execCount, backoffCount, initState]
    · have hbo2 : bo = [] := by
        rcases hbo with rfl | ⟨rfl, hlt⟩
        · rfl
        · rw [hrc0] at hlt
          exact absurd hlt (by simp)
      subst hbo2
      have hloop : loopResult c outc cons req = st2 := by
        rw [loopResult, hk, doLoop, if_pos hg, hds]
        rfl
      rw [hloop, htr]
      constructor <;>
        simp [execCount_append, backoffCount_append, execCount, backoffCount, initState]

/-- Witness for C6 at concrete inputs: with retry count 0 and a failing
executor, one attempt and no backoff. -/
theorem c6_witness :
    exBase.retryCount = 0 ∧
    (∀ j, Event.backoff j ∈ (Do exBase exFailOutcomes exConsume exReq).finalState.trace →
      ∃ p, Event.exec (j + 1) p ∈ (Do exBase exFailOutcomes exConsume exReq).finalState.trace) ∧
    (execCount (Do exBase exFailOutcomes exConsume exReq).finalState.trace = 1 ∧
      backoffCount (Do exBase exFailOutcomes exConsume exReq).finalState.trace = 0) :=
  ⟨rfl, (c6_backoff_only_before_retry exBase exFailOutcomes exConsume exReq).1,
    (c6_backoff_only_before_retry exBase exFailOutcomes exConsume exReq).2 rfl⟩

/-- C8: with no check-retry configured, an attempt that received a response
is followed by a further attempt exactly when its status is ≥ 500 and more
attempts remain; consequently an always-500 executor with retry count 5 is
invoked exactly 6 times, and a first-attempt status < 500 ends the run after
exactly one invocation whatever the retry count. -/
theorem c8_default_retry_policy (c : HttpClient) (cons : Nat → Nat) (req : Request)
    (hcr : c.checkRetry = none) :
    (∀ (outc : Nat → Outcome) (j : Nat) (r : Response), outc j = Outcome.ok r →
      (∃ p, Event.exec j p ∈ (Do c outc cons req).finalState.trace) →
      ((∃ q, Event.exec (j + 1) q ∈ (Do c outc cons req).finalState.trace) ↔
        ((500 : Int) ≤ r.statusCode ∧ (j : Int) < c.retryCount))) ∧
    (∀ (outc : Nat → Outcome) (r : Response), (∀ j, outc j = Outcome.ok r) →
      (500 : Int) ≤ r.statusCode → c.retryCount = 5 →
      execCount (Do c outc cons req).finalState.trace = 6) ∧
    (∀ (outc : Nat → Outcome) (r : Response), outc 0 = Outcome.ok r →
      r.statusCode < 500 → 0 ≤ c.retryCount →
      execCount (Do c outc cons req).finalState.trace = 1) := by
  refine ⟨?_, ?_, ?_⟩
  · intro outc j r hout hex
    simp only [(Do_mem_trace c outc cons req).1] at hex ⊢
    rw [loopResult] at hex ⊢
    exact doLoop_default_policy c outc cons (doSetup req).1 hcr
      ((c.retryCount + 1).toNat) 0 (initState (doSetup req).2) (by omega)
      (fun j2 p2 hm2 => by simp [initState] at hm2) j r hout (Nat.zero_le j) hex
  · intro outc r hout h5 hrc5
    rw [Do_execCount, loopResult,
      doLoop_all500_execCount c outc cons (doSetup req).1 r hcr hout h5
        ((c.retryCount + 1).toNat) 0 (initState (doSetup req).2) (by omega) (by omega)]
    have h0 : execCount (initState (doSetup req).2).trace = 0 := rfl
    omega
  · intro outc r hout hlt hrc
    obtain ⟨st2, hds, htr⟩ := doStep_ok_noCheck_brk c outc cons (doSetup req).1
      (initState (doSetup req).2) 0 r hcr hout (by omega)
    obtain ⟨k, hk⟩ : ∃ k, (c.retryCount + 1).toNat = k + 1 := ⟨c.retryCount.toNat, by omega⟩
    have hg : ((0 : Nat) : Int) ≤ c.retryCount := by omega
    have hloop : loopResult c outc cons req = st2 := by
      rw [loopResult, hk, doLoop, if_pos hg, hds]
    rw [Do_execCount, hloop, htr]
    simp [execCount_append, execCount, initState]

/-- Witness for C8 at concrete inputs: retry count 5 with an always-500
executor gives 6 invocations; a 200 on the first attempt gives 1. -/
theorem c8_witness :
    exCfg5.checkRetry = none ∧
    (∀ j, exOk500 j = Outcome.ok { statusCode := 500 }) ∧ exCfg5.retryCount = 5 ∧
    execCount (Do exCfg5 exOk500 exConsume exReq).finalState.trace = 6 ∧
    execCount (Do exCfg5 exOk200 exConsume exReq).finalState.trace = 1 :=
  ⟨rfl, fun _ => rfl, rfl,
    (c8_default_retry_policy exCfg5 exConsume exReq rfl).2.1 exOk500
      { statusCode := 500 } (fun _ => rfl) (by decide) rfl,
    (c8_default_retry_policy exCfg5 exConsume exReq rfl).2.2 exOk200
      { statusCode := 200 } rfl (by decide) (by decide)⟩

/-- C1 counterexample: with retry count 0, an error handler configured and a
single failing attempt, the executor is invoked once but the handler
receives `numTries = 1`, not `invocations - 1 = 0` (the handler encodes the
`numTries` it receives into the returned error). -/
theorem c1_counterexample :
    execCount (Do exCfgHandler exFailOutcomes exConsume exReq).finalState.trace = 1 ∧
    handlerCalls (Do exCfgHandler exFailOutcomes exConsume exReq).finalState.trace = [1] ∧
    (Do exCfgHandler exFailOutcomes exConsume exReq).err = some ["t"] ∧
    exHandler (Do exCfgHandler exFailOutcomes exConsume exReq).finalState.resp
        (HasError (Do exCfgHandler exFailOutcomes exConsume exReq).finalState.multiErr)
        (1 - 1) = (none, some []) ∧
    some ["t"] ≠ some ([] : List String) := by
  refine ⟨by decide, by decide, by decide, by decide, by decide⟩

/-- C1 amended: a configured error handler is invoked exactly once, with the
last response, the accumulated-error value and the final `numTries`, and its
return pair is `Do`'s result unchanged; `numTries` equals the number of
executor invocations when the loop's last iteration continued (a final
transport error that check-retry did not reject), and executor invocations
minus one when it ended in a break. -/
theorem c1_error_handler_result (c : HttpClient) (outc : Nat → Outcome) (cons : Nat → Nat)
    (req : Request) (h : ErrorHandler) (heh : c.errorHandler = some h) :
    (Do c outc cons req).resp =
      (h (Do c outc cons req).finalState.resp
        (HasError (Do c outc cons req).finalState.multiErr)
        (Do c outc cons req).finalState.numTries).1 ∧
    (Do c outc cons req).err =
      (h (Do c outc cons req).finalState.resp
        (HasError (Do c outc cons req).finalState.multiErr)
        (Do c outc cons req).finalState.numTries).2 ∧
    handlerCalls (Do c outc cons req).finalState.trace =
      [(Do c outc cons req).finalState.numTries] ∧
    ((Do c outc cons req).finalState.numTries =
        execCount (Do c outc cons req).finalState.trace ∨
      (Do c outc cons req).finalState.numTries + 1 =
        execCount (Do c outc cons req).finalState.trace) := by
  obtain ⟨hfs, hresp, herr⟩ := Do_with_handler c outc cons req h heh
  obtain ⟨hme, hnt, hrsp⟩ := Do_finalState_fields c outc cons req
  refine ⟨?_, ?_, ?_, ?_⟩
  · rw [hresp, hme, hnt, hrsp]
  · rw [herr, hme, hnt, hrsp]
  · rw [hfs]
    show handlerCalls ((loopResult c outc cons req).trace ++
        [Event.handlerCall (loopResult c outc cons req).numTries]) =
      [(loopResult c outc cons req).numTries]
    rw [handlerCalls_append]
    have h1 : handlerCalls (loopResult c outc cons req).trace = [] := by
      rw [loopResult, doLoop_handlerCalls]
      rfl
    rw [h1]
    simp [handlerCalls]
  · rw [Do_execCount, hnt, loopResult]
    exact doLoop_numTries c outc cons (doSetup req).1 ((c.retryCount + 1).toNat) 0
      (initState (doSetup req).2) rfl

/-- Witness for C1 (amended) at a concrete input: retry count 0, observing
handler, failing executor. -/
theorem c1_witness :
    exCfgHandler.errorHandler = some exHandler ∧
    ((Do exCfgHandler exFailOutcomes exConsume exReq).resp =
        (exHandler (Do exCfgHandler exFailOutcomes exConsume exReq).finalState.resp
          (HasError (Do exCfgHandler exFailOutcomes exConsume exReq).finalState.multiErr)
          (Do exCfgHandler exFailOutcomes exConsume exReq).finalState.numTries).1 ∧
      (Do exCfgHandler exFailOutcomes exConsume exReq).err =
        (exHandler (Do exCfgHandler exFailOutcomes exConsume exReq).finalState.resp
          (HasError (Do exCfgHandler exFailOutcomes exConsume exReq).finalState.multiErr)
          (Do exCfgHandler exFailOutcomes exConsume exReq).finalState.numTries).2 ∧
      handlerCalls (Do exCfgHandler exFailOutcomes exConsume exReq).finalState.trace =
        [(Do exCfgHandler exFailOutcomes exConsume exReq).finalState.numTries] ∧
      ((Do exCfgHandler exFailOutcomes exConsume exReq).finalState.numTries =
          execCount (Do exCfgHandler exFailOutcomes exConsume exReq).finalState.trace ∨
        (Do exCfgHandler exFailOutcomes exConsume exReq).finalState.numTries + 1 =
          execCount (Do exCfgHandler exFailOutcomes exConsume exReq).finalState.trace)) :=
  ⟨rfl, c1_error_handler_result exCfgHandler exFailOutcomes exConsume exReq exHandler rfl⟩

end Httpclient
